import Mathlib

/-!
Shallow embedding of the descriptor-compilation pipeline of
FYN-Software/protoc-plugin-ts (source: src/index.ts).

The orchestration in src/index.ts is embedded directly.  The helper
modules it pulls in (option.js, type.js, descriptor.js) are not part of
the provided sources, so their operations are modelled from the
specification; each such definition carries a doc comment starting with
the words Modelled from the spec.  All mutable process state of the
original program (the TypeScript factory unique-name counter and the
process-scoped dependency identifier map of type.js) is made explicit:
the counter is a Nat threaded through each allocation, the map is an
association list threaded through the per-file loop in exactly the
order in which the source reads and writes it.
-/

/-- A generated-code identifier.  Models a TypeScript factory unique name:
the base text plus the unique counter value it was allocated with. -/
structure Identifier where
  base : String
  uid : Nat
deriving DecidableEq

/-- Plugin version triple, from compiler/plugin.js. -/
structure Version where
  major : Nat
  minor : Nat
  patch : Nat
deriving DecidableEq

/-- One enum constant, from compiler/descriptor.js. -/
structure EnumValueDescriptorProto where
  name : String
  number : Int
deriving DecidableEq

/-- Enum descriptor: name and ordered constants. -/
structure EnumDescriptorProto where
  name : String
  value : List EnumValueDescriptorProto
deriving DecidableEq

/-- Field descriptor: name, wire number, and an optional fully qualified
reference to a message or enum type defined elsewhere in the schema set. -/
structure FieldDescriptorProto where
  name : String
  number : Nat
  type_name : Option String
deriving DecidableEq

/-- Message descriptor: name and ordered field list. -/
structure DescriptorProto where
  name : String
  field : List FieldDescriptorProto
deriving DecidableEq

/-- Service descriptor: the pipeline only forwards it to the backend. -/
structure ServiceDescriptorProto where
  name : String
deriving DecidableEq

/-- One schema file, as consumed by main in src/index.ts. -/
structure FileDescriptorProto where
  name : String
  package : Option String
  dependency : List String
  enum_type : List EnumDescriptorProto
  message_type : List DescriptorProto
  service : List ServiceDescriptorProto
deriving DecidableEq

/-- The full code-generation request read from the input channel. -/
structure CodeGeneratorRequest where
  parameter : String
  compiler_version : Version
  proto_file : List FileDescriptorProto
deriving DecidableEq

/-- How a field type reference was resolved during message translation. -/
inductive TypeRef where
  | scalar : TypeRef
  | localRef (typeName : String) : TypeRef
  | importedRef (typeName : String) (aliasId : Option Identifier) : TypeRef
  | unresolved (typeName : String) : TypeRef
deriving DecidableEq

/-- A translated declaration (the Statement values placed in the statements
array of src/index.ts, lines 96 to 111). -/
inductive Stmt where
  | enumDecl (name : String) (values : List (String × Int)) : Stmt
  | messageDecl (name : String) (fields : List (String × TypeRef)) (pb : Identifier) : Stmt
  | grpcInterface (grpc : Identifier) : Stmt
  | unimplementedServer (fileName serviceName : String) (grpc : Identifier) : Stmt
  | serviceClient (fileName serviceName : String) (grpc : Identifier) (grpcPackage : String) : Stmt
deriving DecidableEq

/-- A top-level element of one generated source file, in emission order. -/
inductive OutStmt where
  | comment (text : String) : OutStmt
  | importDecl (id : Identifier) (moduleSpecifier : String) : OutStmt
  | plain (s : Stmt) : OutStmt
  | namespaceDecl (pkg : Option String) (body : List Stmt) : OutStmt
deriving DecidableEq

/-- One generated file of the response (CodeGeneratorResponse.File). -/
structure GeneratedFile where
  name : String
  content : List OutStmt
deriving DecidableEq

/-- The full code-generation response written to the output channel. -/
structure CodeGeneratorResponse where
  file : List GeneratedFile
deriving DecidableEq

/-- Parsed plugin options (option.js Options). -/
structure Options where
  style : Option String
  grpc_package : String
deriving DecidableEq

/-- The RPC backend capability set, from the Rpc interface of
src/index.ts lines 21 to 36: four optional operations. -/
structure Rpc where
  createServiceClient? :
    Option (FileDescriptorProto → ServiceDescriptorProto → Identifier → Options → Stmt)
  createUnimplementedServer? :
    Option (FileDescriptorProto → ServiceDescriptorProto → Identifier → Stmt)
  createGrpcInterfaceType? : Option (Identifier → List Stmt)
  wrapInNamespace? : Option (FileDescriptorProto → Bool)

/-- Association-list lookup returning the first binding of a key. -/
def assocLookup {α : Type} (key : String) : List (String × α) → Option α
  | [] => none
  | (k, v) :: rest => if k = key then some v else assocLookup key rest

/-- Structural split of a character list on a separator character, with the
same group semantics as the String splitOn of the source language. -/
def splitOnChar (sep : Char) : List Char → List (List Char)
  | [] => [[]]
  | c :: cs =>
    match splitOnChar sep cs with
    | [] => if c = sep then [[], []] else [[c]]
    | g :: gs => if c = sep then [] :: g :: gs else (c :: g) :: gs

/-- Structural join of strings with a separator. -/
def joinWith (sep : String) : List String → String
  | [] => ""
  | [s] => s
  | s :: rest => s ++ sep ++ joinWith sep rest

/-- Modelled from the spec: parseInput of option.js is not under src.
Section 6 of the spec: the parameter is a flat comma-separated set of
key=value pairs; unknown keys are ignored; style selects the backend and
grpc_package overrides the RPC runtime package name. -/
def parseInput (parameter : String) : Options :=
  let pairs : List (String × String) :=
    (splitOnChar ',' parameter.data).filterMap (fun kv =>
      match splitOnChar '=' kv with
      | k :: v :: rest => some (String.mk k, joinWith "=" (String.mk v :: rest.map String.mk))
      | _ => none)
  { style := assocLookup "style" pairs
    grpc_package := (assocLookup "grpc_package" pairs).getD "@grpc/grpc-js" }

/-- Scan of a reversed character list for the regex of replaceExtension in
src/index.ts line 64: a dot followed by one or more characters that are
neither a dot nor a slash, anchored at the end of the string.  Returns the
total number of matched characters (extension length plus the dot). -/
def revMatchLen : List Char → Nat → Option Nat
  | [], _ => none
  | c :: rest, k =>
    if c = '.' then (if k = 0 then none else some (k + 1))
    else if c = '/' then none
    else revMatchLen rest (k + 1)

/-- replaceExtension from src/index.ts lines 62 to 65: replace the final
extension of the filename by the given extension when the trailing regex
matches, otherwise return the filename unchanged. -/
def replaceExtension (filename : String) (extension : String) : String :=
  match revMatchLen filename.data.reverse 0 with
  | none => filename
  | some n => String.mk (filename.data.take (filename.data.length - n)) ++ extension

/-- Helper for dirname: drop the reversed characters up to and including
the last slash, returning none when the path has no slash. -/
def dropAfterLastSlashRev : List Char → Option (List Char)
  | [] => none
  | c :: rest => if c = '/' then some rest else dropAfterLastSlashRev rest

/-- Modelled from the spec: posix dirname of the node path library, for
paths without trailing slashes, as used on schema file names. -/
def dirname (p : String) : String :=
  match dropAfterLastSlashRev p.data.reverse with
  | none => "."
  | some [] => "/"
  | some revDir => String.mk revDir.reverse

/-- Path segments of a relative path, dropping empty and dot segments. -/
def pathSegments (p : String) : List String :=
  ((splitOnChar '/' p.data).map String.mk).filter (fun s => decide (s ≠ "" ∧ s ≠ "."))

/-- Relative-path segment computation: strip the common leading segments,
then climb out of the remaining source segments and descend into the
remaining target segments. -/
def relSegments : List String → List String → List String
  | [], ts => ts
  | fs, [] => fs.map (fun _ => "..")
  | f :: fs, t :: ts =>
    if f = t then relSegments fs ts
    else ((f :: fs).map (fun _ => "..")) ++ t :: ts

/-- Modelled from the spec: posix relative of the node path library over
already-relative paths, per section 6 of the spec (cross-file imports are
computed as relative paths between output directories). -/
def relativePath (fromDir toPath : String) : String :=
  joinWith "/" (relSegments (pathSegments fromDir) (pathSegments toPath))

/-- The module specifier of one dependency import, from src/index.ts
line 130: the dependency output path with its extension stripped, made
relative to the directory of the current file, under a leading ./ marker. -/
def importModuleSpecifier (fileName dependency : String) : String :=
  "./" ++ relativePath (dirname fileName) (replaceExtension dependency "")

/-- createImport from src/index.ts lines 38 to 50: a namespace import of
the module under the given identifier. -/
def createImport (identifier : Identifier) (moduleSpecifier : String) : OutStmt :=
  OutStmt.importDecl identifier moduleSpecifier

/-- The text of the header comment built by createComment in src/index.ts
lines 52 to 60. -/
def commentText (file : FileDescriptorProto) (v : Version) : String :=
  "Generated by @fyn-software/protoc-plugin-ts. DO NOT EDIT!\n" ++
  "compiler version: " ++ Nat.repr v.major ++ "." ++ Nat.repr v.minor ++ "."
    ++ Nat.repr v.patch ++ "\n" ++
  "source: " ++ file.name ++ "\n" ++
  "git: https://github.com/fyn-software/protoc-plugin-ts\n"

/-- createComment from src/index.ts lines 52 to 60, as an output element. -/
def createComment (file : FileDescriptorProto) (v : Version) : OutStmt :=
  OutStmt.comment (commentText file v)

/-- Models factory.createUniqueName of the TypeScript library: allocates a
fresh identifier from the explicit counter. -/
def createUniqueName (base : String) (c : Nat) : Identifier × Nat :=
  (⟨base, c⟩, c + 1)

/-- The process-scoped dependency identifier map of type.js: dependency
file name to import alias, most recent binding first. -/
def DepMap : Type := List (String × Identifier)

/-- Modelled from the spec: setIdentifierForDependency of type.js is not
under src.  Binds one dependency file name to the alias the current file
must use for it. -/
def setIdentifierForDependency (dependency : String) (identifier : Identifier)
    (m : DepMap) : DepMap :=
  (dependency, identifier) :: m

/-- Modelled from the spec: resetDependencyMap of type.js is not under
src.  Clears the map; this is also the initial state of the module. -/
def resetDependencyMap : DepMap := []

/-- Modelled from the spec: the alias lookup of type.js.  Resolves a
defining file name to the alias currently bound for it, if any. -/
def getIdentifierForDependency (fileName : String) (m : DepMap) : Option Identifier :=
  assocLookup fileName m

/-- The global symbol table built by the preprocess pass: fully qualified
type name to the name of the schema file defining it. -/
def Registry : Type := List (String × String)

/-- Modelled from the spec: preprocess of type.js is not under src.
Section 4.1 of the spec: a companion pass, run once before any file is
translated, records for every fully qualified type name which schema file
defines it.  The qualification mirrors the call in src/index.ts line 89,
which passes the file name and a dotted package path as the scope. -/
def preprocess (file : FileDescriptorProto) (fileName : String) (scope : String) : Registry :=
  file.enum_type.map (fun e => (scope ++ "." ++ e.name, fileName))
  ++ file.message_type.map (fun m => (scope ++ "." ++ m.name, fileName))

/-- The preprocess loop of src/index.ts lines 87 to 90, over every file. -/
def preprocessAll (files : List FileDescriptorProto) : Registry :=
  (files.map (fun f => preprocess f f.name ("." ++ f.package.getD ""))).flatten

/-- Registry lookup for a fully qualified type name. -/
def lookupRegistry (typeName : String) (reg : Registry) : Option String :=
  assocLookup typeName reg

/-- Modelled from the spec: the field type resolution inside the message
translator of descriptor.js, per section 4.2 of the spec.  A scalar field
has no type name; a named reference is resolved through the symbol table
to its defining file, and when that file differs from the current one the
reference is rendered through the alias that the dependency identifier
map holds for the defining file at the moment of translation. -/
def resolveFieldType (reg : Registry) (depMap : DepMap) (file : FileDescriptorProto)
    (fd : FieldDescriptorProto) : TypeRef :=
  match fd.type_name with
  | none => TypeRef.scalar
  | some t =>
    match lookupRegistry t reg with
    | none => TypeRef.unresolved t
    | some defFile =>
      if defFile = file.name then TypeRef.localRef t
      else TypeRef.importedRef t (getIdentifierForDependency defFile depMap)

/-- Modelled from the spec: createEnum of descriptor.js is not under src.
Section 4.2 of the spec: enum translation is a direct one-to-one mapping
of constants with ordering preserved. -/
def createEnum (e : EnumDescriptorProto) : Stmt :=
  Stmt.enumDecl e.name (e.value.map (fun v => (v.name, v.number)))

/-- Modelled from the spec: createMessage of descriptor.js is not under
src.  It renders one declaration for the message, resolving every field
type reference through the dependency identifier map as it runs. -/
def createMessage (reg : Registry) (depMap : DepMap) (file : FileDescriptorProto)
    (m : DescriptorProto) (pb : Identifier) : List Stmt :=
  [Stmt.messageDecl m.name
    (m.field.map (fun fd => (fd.name, resolveFieldType reg depMap file fd))) pb]

/-- Modelled from the spec: createNamespace of descriptor.js is not under
src.  Wraps the declarations in one namespace scope named by the schema
package, per section 4.4 of the spec. -/
def createNamespace (pkg : Option String) (statements : List Stmt) : OutStmt :=
  OutStmt.namespaceDecl pkg statements

/-- The statements array of src/index.ts lines 96 to 111, in source
order: enums, then messages, then the optional shared interface types,
then per service the optional server and client declarations.  The
dependency identifier map passed in is the map state at the moment this
array is built. -/
def buildStatements (rpc : Rpc) (options : Options) (reg : Registry) (depMap : DepMap)
    (pb grpc : Identifier) (file : FileDescriptorProto) : List Stmt :=
  file.enum_type.map createEnum
  ++ (file.message_type.map (fun m => createMessage reg depMap file m pb)).flatten
  ++ (match rpc.createGrpcInterfaceType? with
      | some f => f grpc
      | none => [])
  ++ (file.service.map (fun s =>
        (match rpc.createUnimplementedServer? with
         | some f => [f file s grpc]
         | none => [])
        ++ (match rpc.createServiceClient? with
            | some f => [f file s grpc options]
            | none => []))).flatten

/-- The dependency import loop of src/index.ts lines 123 to 132: one
namespace import per declared dependency, in declared order, each under a
fresh unique name allocated from the counter. -/
def buildDepImports (fileName : String) : List String → Nat → List OutStmt
  | [], _ => []
  | d :: ds, c =>
    createImport ⟨"dependency", c⟩ (importModuleSpecifier fileName d)
      :: buildDepImports fileName ds (c + 1)

/-- The map writes of the same loop: setIdentifierForDependency is called
once per dependency with the freshly allocated alias. -/
def depMapAfter : List String → Nat → DepMap → DepMap
  | [], _, m => m
  | d :: ds, c, m => depMapAfter ds (c + 1) (setIdentifierForDependency d ⟨"dependency", c⟩ m)

/-- The namespace-wrapping condition of src/index.ts line 139: the value
of the optional backend query, with false substituted when it is absent. -/
def wrapCond (rpc : Rpc) (file : FileDescriptorProto) : Bool :=
  match rpc.wrapInNamespace? with
  | some w => w file
  | none => false

/-- The tail of the generated content, src/index.ts lines 138 to 142:
either one namespace scope holding all statements, or the statements at
top level. -/
def wrapTail (rpc : Rpc) (file : FileDescriptorProto) (statements : List Stmt) : List OutStmt :=
  if wrapCond rpc file then [createNamespace file.package statements]
  else statements.map OutStmt.plain

/-- One iteration of the response file map of src/index.ts lines 94 to
148, with the mutable process state (unique-name counter, dependency
identifier map) threaded explicitly.  The order of effects mirrors the
source exactly: the statements array is built first, against the map
state inherited from the previous iteration (lines 96 to 111); then
resetDependencyMap clears the map (line 113); then the dependency import
loop allocates fresh aliases and rebinds the map (lines 123 to 132); the
two runtime imports and the optionally wrapped statements follow (lines
134 to 142). -/
def compileFile (rpc : Rpc) (options : Options) (version : Version) (reg : Registry)
    (pb grpc : Identifier) (file : FileDescriptorProto) :
    Nat × DepMap → GeneratedFile × (Nat × DepMap)
  | (c, m) =>
    let statements := buildStatements rpc options reg m pb grpc file
    let imports := buildDepImports file.name file.dependency c
    let mOut := depMapAfter file.dependency c resetDependencyMap
    ({ name := replaceExtension file.name ".ts"
       content :=
         createComment file version
           :: imports
           ++ [createImport pb "google-protobuf", createImport grpc options.grpc_package]
           ++ wrapTail rpc file statements },
     (c + file.dependency.length, mOut))

/-- The file map of src/index.ts line 94 over the whole request, threading
the process state left to right in input order. -/
def compileFiles (rpc : Rpc) (options : Options) (version : Version) (reg : Registry)
    (pb grpc : Identifier) :
    List FileDescriptorProto → Nat × DepMap → List GeneratedFile × (Nat × DepMap)
  | [], st => ([], st)
  | f :: fs, st =>
    let r := compileFile rpc options version reg pb grpc f st
    let rest := compileFiles rpc options version reg pb grpc fs r.2
    (r.1 :: rest.1, rest.2)

/-- Modelled from the spec: the dynamic backend import of src/index.ts
line 85, over an explicit registry of available styles.  A missing style
option or an unresolvable style module is a fatal startup error. -/
def loadStyle (styles : String → Option Rpc) : Option String → Except String Rpc
  | none => Except.error "fatal: no style option provided"
  | some s =>
    match styles s with
    | none => Except.error ("fatal: cannot load ./style/" ++ s ++ "/rpc.js")
    | some rpc => Except.ok rpc

/-- The main function of src/index.ts lines 70 to 152: allocate the two
runtime aliases, parse the options, load the backend, run the preprocess
pass, then map every schema file to one generated file in input order.
The counter starts at zero in a fresh process and the dependency map
starts in its reset state. -/
def mainRun (styles : String → Option Rpc) (request : CodeGeneratorRequest) :
    Except String CodeGeneratorResponse :=
  let pbPair := createUniqueName "pb" 0
  let grpcPair := createUniqueName "grpc" pbPair.2
  let options := parseInput request.parameter
  match loadStyle styles options.style with
  | Except.error e => Except.error e
  | Except.ok rpc =>
    let reg := preprocessAll request.proto_file
    Except.ok ⟨(compileFiles rpc options request.compiler_version reg
      pbPair.1 grpcPair.1 request.proto_file (grpcPair.2, resetDependencyMap)).1⟩

/-- The serialization-runtime alias: the first unique name main allocates
(src/index.ts line 73). -/
def pbId : Identifier := ⟨"pb", 0⟩

/-- The RPC-framework alias: the second unique name main allocates
(src/index.ts line 74). -/
def grpcId : Identifier := ⟨"grpc", 1⟩

/-- Running the batch compiler twice on the same request, each run a fresh
process with the same initial state. -/
def runTwice (styles : String → Option Rpc) (request : CodeGeneratorRequest) :
    Except String CodeGeneratorResponse × Except String CodeGeneratorResponse :=
  (mainRun styles request, mainRun styles request)

/-! Structural lemmas about the pipeline. -/

theorem string_append_data (s t : String) : (s ++ t).data = s.data ++ t.data := by
  cases s; cases t; rfl

theorem compileFile_eq (rpc : Rpc) (options : Options) (version : Version) (reg : Registry)
    (pb grpc : Identifier) (file : FileDescriptorProto) (c : Nat) (m : DepMap) :
    compileFile rpc options version reg pb grpc file (c, m) =
      ({ name := replaceExtension file.name ".ts"
         content :=
           createComment file version
             :: buildDepImports file.name file.dependency c
             ++ [createImport pb "google-protobuf", createImport grpc options.grpc_package]
             ++ wrapTail rpc file (buildStatements rpc options reg m pb grpc file) },
       (c + file.dependency.length, depMapAfter file.dependency c resetDependencyMap)) := rfl

theorem compileFile_counter (rpc : Rpc) (options : Options) (version : Version)
    (reg : Registry) (pb grpc : Identifier) (file : FileDescriptorProto) (st : Nat × DepMap) :
    (compileFile rpc options version reg pb grpc file st).2.1 = st.1 + file.dependency.length := by
  obtain ⟨c, m⟩ := st
  rfl

theorem compileFiles_cons (rpc : Rpc) (options : Options) (version : Version) (reg : Registry)
    (pb grpc : Identifier) (f : FileDescriptorProto) (fs : List FileDescriptorProto)
    (st : Nat × DepMap) :
    (compileFiles rpc options version reg pb grpc (f :: fs) st).1 =
      (compileFile rpc options version reg pb grpc f st).1
        :: (compileFiles rpc options version reg pb grpc fs
             (compileFile rpc options version reg pb grpc f st).2).1 := rfl

theorem compileFiles_forall₂ (rpc : Rpc) (options : Options) (version : Version)
    (reg : Registry) (pb grpc : Identifier) (files : List FileDescriptorProto) :
    ∀ st : Nat × DepMap,
      List.Forall₂ (fun f g => ∃ c m, st.1 ≤ c ∧
          g = (compileFile rpc options version reg pb grpc f (c, m)).1)
        files (compileFiles rpc options version reg pb grpc files st).1 := by
  induction files with
  | nil => intro st; exact List.Forall₂.nil
  | cons f fs ih =>
    intro st
    rw [compileFiles_cons]
    refine List.Forall₂.cons ⟨st.1, st.2, le_refl _, ?_⟩ ?_
    · rfl
    · refine (ih (compileFile rpc options version reg pb grpc f st).2).imp ?_
      rintro a b ⟨c, m, hc, hb⟩
      refine ⟨c, m, ?_, hb⟩
      calc st.1 ≤ st.1 + f.dependency.length := Nat.le_add_right _ _
        _ = (compileFile rpc options version reg pb grpc f st).2.1 :=
            (compileFile_counter rpc options version reg pb grpc f st).symm
        _ ≤ c := hc

theorem forall₂_mem_right {α β : Type} {R : α → β → Prop} :
    ∀ {l₁ : List α} {l₂ : List β}, List.Forall₂ R l₁ l₂ →
      ∀ {b}, b ∈ l₂ → ∃ a, a ∈ l₁ ∧ R a b := by
  intro l₁ l₂ h
  induction h with
  | nil => intro b hb; cases hb
  | @cons a₁ b₁ _ _ hR _ ih =>
    intro b hb
    rcases List.mem_cons.mp hb with hb | hb
    · exact ⟨a₁, List.mem_cons_self _ _, hb ▸ hR⟩
    · rcases ih hb with ⟨a, ha, hr⟩
      exact ⟨a, List.mem_cons_of_mem _ ha, hr⟩

theorem buildDepImports_mem {fileName : String} :
    ∀ {deps : List String} {c : Nat} {x : OutStmt}, x ∈ buildDepImports fileName deps c →
      ∃ d i, d ∈ deps ∧ x = OutStmt.importDecl i (importModuleSpecifier fileName d) ∧
        i.base = "dependency" ∧ c ≤ i.uid := by
  intro deps
  induction deps with
  | nil => intro c x hx; cases hx
  | cons d ds ih =>
    intro c x hx
    rcases List.mem_cons.mp hx with hx | hx
    · exact ⟨d, ⟨"dependency", c⟩, List.mem_cons_self _ _, hx, rfl, le_refl _⟩
    · rcases ih hx with ⟨d', i, hd, he, hb, hc⟩
      exact ⟨d', i, List.mem_cons_of_mem _ hd, he, hb, Nat.le_of_succ_le hc⟩

theorem buildDepImports_zip (fileName : String) :
    ∀ (deps : List String) (c : Nat),
      ∃ ids : List Identifier, ids.length = deps.length ∧
        buildDepImports fileName deps c =
          (deps.zip ids).map (fun p =>
            OutStmt.importDecl p.2 (importModuleSpecifier fileName p.1)) := by
  intro deps
  induction deps with
  | nil => intro c; exact ⟨[], rfl, rfl⟩
  | cons d ds ih =>
    intro c
    rcases ih (c + 1) with ⟨ids, hlen, heq⟩
    refine ⟨⟨"dependency", c⟩ :: ids, by simp [hlen], ?_⟩
    simp [buildDepImports, heq, createImport]

/-- Recognizer for an import of a given identifier. -/
def isImportOf (id : Identifier) : OutStmt → Bool
  | OutStmt.importDecl i _ => decide (i = id)
  | _ => false

/-- Number of imports bound to a given identifier in a content list. -/
def countImports (id : Identifier) (l : List OutStmt) : Nat :=
  (l.filter (isImportOf id)).length

/-- Recognizer for a namespace scope element. -/
def isNamespaceStmt : OutStmt → Bool
  | OutStmt.namespaceDecl _ _ => true
  | _ => false

/-- Number of namespace scopes in a content list. -/
def nsCount (l : List OutStmt) : Nat :=
  (l.filter isNamespaceStmt).length

/-- All translated declarations of a content list, looking through the
optional namespace scope. -/
def contentStmts (l : List OutStmt) : List Stmt :=
  (l.map (fun s =>
    match s with
    | OutStmt.plain st => [st]
    | OutStmt.namespaceDecl _ body => body
    | _ => [])).flatten

/-- Declarations a backend with no capabilities can never contribute. -/
def Stmt.isTranslatorOutput : Stmt → Bool
  | Stmt.enumDecl _ _ => true
  | Stmt.messageDecl _ _ _ => true
  | _ => false

theorem countImports_append (id : Identifier) (l₁ l₂ : List OutStmt) :
    countImports id (l₁ ++ l₂) = countImports id l₁ + countImports id l₂ := by
  simp [countImports, List.filter_append]

theorem countImports_cons (id : Identifier) (x : OutStmt) (l : List OutStmt) :
    countImports id (x :: l) =
      (if isImportOf id x then 1 else 0) + countImports id l := by
  by_cases h : isImportOf id x = true
  · simp [countImports, List.filter_cons, h, Nat.add_comm]
  · simp [countImports, List.filter_cons, h]

theorem countImports_eq_zero {id : Identifier} {l : List OutStmt}
    (h : ∀ x ∈ l, isImportOf id x = false) : countImports id l = 0 := by
  simp only [countImports, List.length_eq_zero]
  exact List.filter_eq_nil_iff.mpr (fun x hx => by simp [h x hx])

theorem countImports_depImports {fileName : String} {deps : List String} {c : Nat}
    {id : Identifier} (hbase : id.base ≠ "dependency") :
    countImports id (buildDepImports fileName deps c) = 0 := by
  refine countImports_eq_zero ?_
  intro x hx
  rcases buildDepImports_mem hx with ⟨d, i, _, he, hb, _⟩
  subst he
  simp [isImportOf]
  intro h
  exact absurd (h ▸ hb) hbase

theorem wrapTail_no_import {rpc : Rpc} {file : FileDescriptorProto} {stmts : List Stmt}
    {x : OutStmt} (hx : x ∈ wrapTail rpc file stmts) :
    (∃ st ∈ stmts, x = OutStmt.plain st) ∨ x = OutStmt.namespaceDecl file.package stmts := by
  unfold wrapTail at hx
  by_cases h : wrapCond rpc file
  · rw [if_pos h] at hx
    right
    rcases List.mem_singleton.mp hx with rfl
    rfl
  · rw [if_neg h] at hx
    left
    rcases List.mem_map.mp hx with ⟨st, hst, rfl⟩
    exact ⟨st, hst, rfl⟩

theorem countImports_wrapTail (id : Identifier) (rpc : Rpc) (file : FileDescriptorProto)
    (stmts : List Stmt) : countImports id (wrapTail rpc file stmts) = 0 := by
  refine countImports_eq_zero ?_
  intro x hx
  rcases wrapTail_no_import hx with ⟨st, _, rfl⟩ | rfl <;> rfl

theorem no_import_mem_wrapTail {rpc : Rpc} {file : FileDescriptorProto} {stmts : List Stmt}
    {i : Identifier} {sp : String} (h : OutStmt.importDecl i sp ∈ wrapTail rpc file stmts) :
    False := by
  rcases wrapTail_no_import h with ⟨st, _, he⟩ | he <;> cases he

theorem contentStmts_append (l₁ l₂ : List OutStmt) :
    contentStmts (l₁ ++ l₂) = contentStmts l₁ ++ contentStmts l₂ := by
  simp [contentStmts]

theorem contentStmts_map_plain (l : List Stmt) :
    contentStmts (l.map OutStmt.plain) = l := by
  induction l with
  | nil => rfl
  | cons s rest ih => simp [contentStmts] at ih ⊢; exact ih

theorem mainRun_ok_of_style {styles : String → Option Rpc} {request : CodeGeneratorRequest}
    {s : String} {rpc : Rpc}
    (hstyle : (parseInput request.parameter).style = some s) (hrpc : styles s = some rpc) :
    mainRun styles request = Except.ok ⟨(compileFiles rpc (parseInput request.parameter)
      request.compiler_version (preprocessAll request.proto_file) pbId grpcId
      request.proto_file (2, resetDependencyMap)).1⟩ := by
  unfold mainRun
  simp only [hstyle, loadStyle, hrpc, createUniqueName]
  rfl

theorem mainRun_error_of_no_style {styles : String → Option Rpc}
    {request : CodeGeneratorRequest} (hstyle : (parseInput request.parameter).style = none) :
    mainRun styles request = Except.error "fatal: no style option provided" := by
  unfold mainRun
  simp only [hstyle, loadStyle]

theorem mainRun_error_of_unknown_style {styles : String → Option Rpc}
    {request : CodeGeneratorRequest} {s : String}
    (hstyle : (parseInput request.parameter).style = some s) (hrpc : styles s = none) :
    mainRun styles request =
      Except.error ("fatal: cannot load ./style/" ++ s ++ "/rpc.js") := by
  unfold mainRun
  simp only [hstyle, loadStyle, hrpc]

theorem mainRun_ok_inv {styles : String → Option Rpc} {request : CodeGeneratorRequest}
    {resp : CodeGeneratorResponse} (h : mainRun styles request = Except.ok resp) :
    ∃ s rpc, (parseInput request.parameter).style = some s ∧ styles s = some rpc ∧
      resp.file = (compileFiles rpc (parseInput request.parameter) request.compiler_version
        (preprocessAll request.proto_file) pbId grpcId request.proto_file
        (2, resetDependencyMap)).1 := by
  rcases hstyle : (parseInput request.parameter).style with _ | s
  · rw [mainRun_error_of_no_style hstyle] at h
    cases h
  · rcases hrpc : styles s with _ | rpc
    · rw [mainRun_error_of_unknown_style hstyle hrpc] at h
      cases h
    · rw [mainRun_ok_of_style hstyle hrpc] at h
      refine ⟨s, rpc, rfl, hrpc, ?_⟩
      cases h
      rfl

/-- Master structural description of a successful run: the response pairs
the input files positionally with generated files whose name and content
follow the assembly order of src/index.ts lines 115 to 146, each file
compiled at some counter value of at least 2. -/
theorem mainRun_content_shape {styles : String → Option Rpc} {request : CodeGeneratorRequest}
    {resp : CodeGeneratorResponse} (h : mainRun styles request = Except.ok resp) :
    ∃ s rpc, (parseInput request.parameter).style = some s ∧ styles s = some rpc ∧
      List.Forall₂ (fun f g =>
        ∃ c m, 2 ≤ c ∧
          g.name = replaceExtension f.name ".ts" ∧
          g.content = createComment f request.compiler_version
            :: buildDepImports f.name f.dependency c
            ++ [createImport pbId "google-protobuf",
                createImport grpcId (parseInput request.parameter).grpc_package]
            ++ wrapTail rpc f (buildStatements rpc (parseInput request.parameter)
                 (preprocessAll request.proto_file) m pbId grpcId f))
        request.proto_file resp.file := by
  rcases mainRun_ok_inv h with ⟨s, rpc, hstyle, hrpc, hfile⟩
  refine ⟨s, rpc, hstyle, hrpc, ?_⟩
  rw [hfile]
  refine (compileFiles_forall₂ rpc (parseInput request.parameter) request.compiler_version
    (preprocessAll request.proto_file) pbId grpcId request.proto_file
    (2, resetDependencyMap)).imp ?_
  rintro f g ⟨c, m, hc, rfl⟩
  exact ⟨c, m, hc, rfl, rfl⟩

theorem revMatchLen_ext (r : List Char) :
    ∀ (l : List Char), (∀ ch ∈ l, ch ≠ '.' ∧ ch ≠ '/') →
      ∀ k, revMatchLen (l ++ '.' :: r) k =
        if l.length + k = 0 then none else some (l.length + k + 1) := by
  intro l
  induction l with
  | nil =>
    intro _ k
    simp [revMatchLen]
  | cons ch l ih =>
    intro h k
    have hch := h ch (List.mem_cons_self _ _)
    have hrest : ∀ c ∈ l, c ≠ '.' ∧ c ≠ '/' :=
      fun c hc => h c (List.mem_cons_of_mem _ hc)
    have step : revMatchLen ((ch :: l) ++ '.' :: r) k =
        revMatchLen (l ++ '.' :: r) (k + 1) := by
      simp [revMatchLen, hch.1, hch.2]
    rw [step, ih hrest (k + 1)]
    have h1 : l.length + (k + 1) ≠ 0 := by omega
    have h2 : (ch :: l).length + k ≠ 0 := by simp
    rw [if_neg h1, if_neg h2]
    congr 1
    simp
    omega

theorem string_ne_empty_data {ext : String} (h : ext ≠ "") : ext.data ≠ [] := by
  cases ext with
  | mk d =>
    intro hd
    have hd' : d = [] := hd
    exact h (by rw [hd'])

theorem replaceExtension_wellformed (stem ext : String) (hne : ext ≠ "")
    (h : ∀ ch ∈ ext.data, ch ≠ '.' ∧ ch ≠ '/') :
    replaceExtension (stem ++ "." ++ ext) ".ts" = stem ++ ".ts" := by
  have hdata : (stem ++ "." ++ ext).data = stem.data ++ '.' :: ext.data := by
    rw [string_append_data, string_append_data]
    simp
  have hrev : (stem ++ "." ++ ext).data.reverse =
      ext.data.reverse ++ '.' :: stem.data.reverse := by
    rw [hdata]
    simp
  have hmem : ∀ ch ∈ ext.data.reverse, ch ≠ '.' ∧ ch ≠ '/' := by
    intro ch hch
    exact h ch (List.mem_reverse.mp hch)
  have hlen : ext.data.reverse.length = ext.data.length := List.length_reverse _
  have hpos : ext.data.length ≠ 0 := by
    intro h0
    exact string_ne_empty_data hne (List.length_eq_zero.mp h0)
  have hmatch : revMatchLen (stem ++ "." ++ ext).data.reverse 0 =
      some (ext.data.length + 1) := by
    rw [hrev, revMatchLen_ext stem.data.reverse ext.data.reverse hmem 0]
    rw [if_neg (by omega)]
    simp [List.length_reverse]
  have htake : (stem ++ "." ++ ext).data.take
      ((stem ++ "." ++ ext).data.length - (ext.data.length + 1)) = stem.data := by
    rw [hdata]
    have hl : (stem.data ++ '.' :: ext.data).length - (ext.data.length + 1)
        = stem.data.length := by
      simp
    rw [hl]
    exact List.take_left stem.data ('.' :: ext.data)
  unfold replaceExtension
  rw [hmatch]
  show String.mk ((stem ++ "." ++ ext).data.take
      ((stem ++ "." ++ ext).data.length - (ext.data.length + 1))) ++ ".ts"
    = stem ++ ".ts"
  rw [htake]

/-! Concrete fixtures used to evaluate the pipeline on closed inputs. -/

/-- A backend implementing none of the four RPC operations. -/
def rpcNone : Rpc := ⟨none, none, none, none⟩

/-- A backend implementing all four RPC operations, wrapping in a namespace. -/
def rpcFull : Rpc :=
  ⟨some (fun f s g o => Stmt.serviceClient f.name s.name g o.grpc_package),
   some (fun f s g => Stmt.unimplementedServer f.name s.name g),
   some (fun g => [Stmt.grpcInterface g]),
   some (fun _ => true)⟩

/-- A style registry with the two test backends. -/
def stylesBoth : String → Option Rpc :=
  fun s => if s = "none" then some rpcNone else if s = "full" then some rpcFull else none

def enumA : EnumDescriptorProto := ⟨"A", [⟨"X", 0⟩]⟩

def fileA : FileDescriptorProto := ⟨"a.proto", some "a", [], [enumA], [], []⟩

def fileB1 : FileDescriptorProto := ⟨"b1.proto", some "b1", ["a.proto"], [], [], []⟩

def msgM : DescriptorProto := ⟨"M", [⟨"c", 1, some ".a.A"⟩]⟩

def fileB2 : FileDescriptorProto := ⟨"b2.proto", some "b2", ["a.proto"], [], [msgM], []⟩

/-- A batch of three files: a.proto defining enum A, then two files that
each import a.proto, the second one referencing the type .a.A. -/
def reqStale : CodeGeneratorRequest := ⟨"style=none", ⟨1, 0, 0⟩, [fileA, fileB1, fileB2]⟩

/-- The response the pipeline computes on reqStale. -/
def respStale : CodeGeneratorResponse :=
  (mainRun stylesBoth reqStale).toOption.getD ⟨[]⟩

/-- The generated file for b2.proto, the last file of reqStale. -/
def gStale : GeneratedFile := (respStale.file.getLast?).getD ⟨"", []⟩

example : mainRun stylesBoth reqStale = Except.ok respStale := rfl

/-! Claim theorems. -/

/-- C1: the claim states that the dependency identifier map is cleared
before processing each file and that no type declaration of one file is
resolved against an alias binding left over from a previously processed
file.  The code violates this: in src/index.ts the statements array
(lines 96 to 111) is built before resetDependencyMap (line 113) and
before the import loop of the current file binds its aliases (lines 123
to 132), so the declarations of file i are resolved against the aliases
bound while emitting the imports of file i-1.  On reqStale, the message
declaration of b2.proto references the alias with counter value 2, which
was allocated for the import of b1.proto, while the import actually
emitted into the generated file of b2.proto binds the alias with counter
value 3; no import of that file binds the referenced alias. -/
theorem c1_stale_alias_across_files :
    mainRun stylesBoth reqStale = Except.ok respStale ∧
    respStale.file.length = 3 ∧
    respStale.file.getLast? = some gStale ∧
    createImport ⟨"dependency", 3⟩ "./a" ∈ gStale.content ∧
    OutStmt.plain (Stmt.messageDecl "M"
      [("c", TypeRef.importedRef ".a.A" (some ⟨"dependency", 2⟩))] pbId) ∈ gStale.content ∧
    countImports ⟨"dependency", 2⟩ gStale.content = 0 :=
  ⟨rfl, rfl, rfl, by decide, by decide, rfl⟩

/-- C2: for every input request that compiles successfully, the response
holds exactly one generated file per input schema file, positionally in
input order, each named from the matching schema file. -/
theorem c2_one_generated_file_per_input_in_order
    (styles : String → Option Rpc) (request : CodeGeneratorRequest)
    (resp : CodeGeneratorResponse) (h : mainRun styles request = Except.ok resp) :
    resp.file.length = request.proto_file.length ∧
    List.Forall₂ (fun f g => g.name = replaceExtension f.name ".ts")
      request.proto_file resp.file := by
  rcases mainRun_content_shape h with ⟨s, rpc, _, _, hshape⟩
  have hnames : List.Forall₂ (fun f g => g.name = replaceExtension f.name ".ts")
      request.proto_file resp.file := by
    refine hshape.imp ?_
    rintro f g ⟨c, m, _, hname, _⟩
    exact hname
  exact ⟨hnames.length_eq.symm, hnames⟩

/-- C2 witness: on the concrete three-file batch the theorem applies with
its hypothesis discharged by evaluation. -/
theorem c2_one_generated_file_per_input_in_order_holds :
    respStale.file.length = reqStale.proto_file.length ∧
    List.Forall₂ (fun f g => g.name = replaceExtension f.name ".ts")
      reqStale.proto_file respStale.file :=
  c2_one_generated_file_per_input_in_order stylesBoth reqStale respStale rfl

theorem countImports_runtime_pb (gp : String) :
    countImports pbId [createImport pbId "google-protobuf", createImport grpcId gp] = 1 := by
  simp [countImports, createImport, List.filter_cons, isImportOf, pbId, grpcId]

theorem countImports_runtime_grpc (gp : String) :
    countImports grpcId [createImport pbId "google-protobuf", createImport grpcId gp] = 1 := by
  simp [countImports, createImport, List.filter_cons, isImportOf, pbId, grpcId]

theorem mem_content_cases {f : FileDescriptorProto} {v : Version} {c : Nat} {rpc : Rpc}
    {stmts : List Stmt} {gp : String} {id : Identifier} {sp : String}
    (hbase : id.base ≠ "dependency")
    (hmem : OutStmt.importDecl id sp ∈ (createComment f v
      :: buildDepImports f.name f.dependency c
      ++ [createImport pbId "google-protobuf", createImport grpcId gp]
      ++ wrapTail rpc f stmts)) :
    (id = pbId ∧ sp = "google-protobuf") ∨ (id = grpcId ∧ sp = gp) := by
  rcases List.mem_append.mp hmem with hx | hx
  · rcases List.mem_append.mp hx with hx | hx
    · rcases List.mem_cons.mp hx with hx | hx
      · cases hx
      · rcases buildDepImports_mem hx with ⟨d, i, _, he, hb, _⟩
        cases he
        exact absurd hb hbase
    · rcases List.mem_cons.mp hx with hx | hx
      · cases hx
        exact Or.inl ⟨rfl, rfl⟩
      rcases List.mem_cons.mp hx with hx | hx
      · cases hx
        exact Or.inr ⟨rfl, rfl⟩
      · cases hx
  · exact absurd hx (fun hh => no_import_mem_wrapTail hh)

/-- C3: every generated file of a successful run carries exactly one
runtime import bound to the serialization-runtime alias and exactly one
bound to the RPC-framework alias, pointing at the protobuf runtime
package and at the configured RPC package respectively, whatever the
schema file contains. -/
theorem c3_two_runtime_imports_always
    (styles : String → Option Rpc) (request : CodeGeneratorRequest)
    (resp : CodeGeneratorResponse) (h : mainRun styles request = Except.ok resp) :
    ∀ g ∈ resp.file,
      countImports pbId g.content = 1 ∧
      countImports grpcId g.content = 1 ∧
      (∀ sp, OutStmt.importDecl pbId sp ∈ g.content → sp = "google-protobuf") ∧
      (∀ sp, OutStmt.importDecl grpcId sp ∈ g.content →
        sp = (parseInput request.parameter).grpc_package) := by
  rcases mainRun_content_shape h with ⟨s, rpc, _, _, hshape⟩
  intro g hg
  rcases forall₂_mem_right hshape hg with ⟨f, _, c, m, _, _, hcontent⟩
  rw [hcontent]
  refine ⟨?_, ?_, ?_, ?_⟩
  · rw [countImports_append, countImports_append, countImports_cons]
    rw [countImports_depImports (by decide), countImports_wrapTail,
      countImports_runtime_pb]
    rfl
  · rw [countImports_append, countImports_append, countImports_cons]
    rw [countImports_depImports (by decide), countImports_wrapTail,
      countImports_runtime_grpc]
    rfl
  · intro sp hsp
    rcases mem_content_cases (by decide) hsp with ⟨_, he⟩ | ⟨hid, _⟩
    · exact he
    · exact absurd hid (by decide)
  · intro sp hsp
    rcases mem_content_cases (by decide) hsp with ⟨hid, _⟩ | ⟨_, he⟩
    · exact absurd hid (by decide)
    · exact he

/-- C3 witness: the theorem applied to the concrete batch, at the
generated file of b2.proto. -/
theorem c3_two_runtime_imports_always_holds :
    countImports pbId gStale.content = 1 ∧
    countImports grpcId gStale.content = 1 ∧
    (∀ sp, OutStmt.importDecl pbId sp ∈ gStale.content → sp = "google-protobuf") ∧
    (∀ sp, OutStmt.importDecl grpcId sp ∈ gStale.content →
      sp = (parseInput reqStale.parameter).grpc_package) :=
  c3_two_runtime_imports_always stylesBoth reqStale respStale rfl gStale (by decide)

/-- Characterization of the declaration tail of a generated file: either
every declaration at top level, or one namespace scope named by the
schema package. -/
def declTailFor (file : FileDescriptorProto) (t : List OutStmt) : Prop :=
  ∃ stmts : List Stmt,
    t = stmts.map OutStmt.plain ∨ t = [OutStmt.namespaceDecl file.package stmts]

theorem wrapTail_declTail (rpc : Rpc) (file : FileDescriptorProto) (stmts : List Stmt) :
    declTailFor file (wrapTail rpc file stmts) := by
  unfold wrapTail
  by_cases h : wrapCond rpc file
  · exact ⟨stmts, Or.inr (by rw [if_pos h]; rfl)⟩
  · exact ⟨stmts, Or.inl (by rw [if_neg h])⟩

/-- C4: in every generated file the content is ordered as the header
comment, then one dependency import per declared dependency in declared
order with the relative module specifier, then the two runtime imports,
then the translated declarations. -/
theorem c4_content_declaration_order
    (styles : String → Option Rpc) (request : CodeGeneratorRequest)
    (resp : CodeGeneratorResponse) (h : mainRun styles request = Except.ok resp) :
    List.Forall₂ (fun f g =>
      ∃ ids : List Identifier, ids.length = f.dependency.length ∧
        ∃ t, declTailFor f t ∧
          g.content = (OutStmt.comment (commentText f request.compiler_version)
            :: (f.dependency.zip ids).map (fun p =>
                 OutStmt.importDecl p.2 (importModuleSpecifier f.name p.1)))
            ++ [OutStmt.importDecl pbId "google-protobuf",
                OutStmt.importDecl grpcId (parseInput request.parameter).grpc_package]
            ++ t)
      request.proto_file resp.file := by
  rcases mainRun_content_shape h with ⟨s, rpc, _, _, hshape⟩
  refine hshape.imp ?_
  rintro f g ⟨c, m, _, _, hcontent⟩
  rcases buildDepImports_zip f.name f.dependency c with ⟨ids, hlen, hzip⟩
  refine ⟨ids, hlen,
    wrapTail rpc f (buildStatements rpc (parseInput request.parameter)
      (preprocessAll request.proto_file) m pbId grpcId f),
    wrapTail_declTail rpc f _, ?_⟩
  rw [hcontent, hzip]
  rfl

/-- C4 witness: the theorem applied to the concrete batch. -/
theorem c4_content_declaration_order_holds :
    List.Forall₂ (fun f g =>
      ∃ ids : List Identifier, ids.length = f.dependency.length ∧
        ∃ t, declTailFor f t ∧
          g.content = (OutStmt.comment (commentText f reqStale.compiler_version)
            :: (f.dependency.zip ids).map (fun p =>
                 OutStmt.importDecl p.2 (importModuleSpecifier f.name p.1)))
            ++ [OutStmt.importDecl pbId "google-protobuf",
                OutStmt.importDecl grpcId (parseInput reqStale.parameter).grpc_package]
            ++ t)
      reqStale.proto_file respStale.file :=
  c4_content_declaration_order stylesBoth reqStale respStale rfl

theorem buildStatements_none (options : Options) (reg : Registry) (m : DepMap)
    (pb grpc : Identifier) (f : FileDescriptorProto) (rpc : Rpc)
    (h1 : rpc.createServiceClient? = none) (h2 : rpc.createUnimplementedServer? = none)
    (h3 : rpc.createGrpcInterfaceType? = none) :
    buildStatements rpc options reg m pb grpc f =
      f.enum_type.map createEnum
      ++ (f.message_type.map (fun mm => createMessage reg m f mm pb)).flatten := by
  unfold buildStatements
  rw [h1, h2, h3]
  simp

theorem contentStmts_depImports (fileName : String) :
    ∀ (deps : List String) (c : Nat), contentStmts (buildDepImports fileName deps c) = [] := by
  intro deps
  induction deps with
  | nil => intro c; rfl
  | cons d ds ih =>
    intro c
    simp only [buildDepImports, createImport, contentStmts, List.map_cons, List.flatten]
    simpa [contentStmts] using ih (c + 1)

/-- C5: the pipeline tolerates a backend implementing any subset of the
four operations (the run completes), and with a backend implementing none
of them every generated file holds only translator output, no
service-related declarations. -/
theorem c5_optional_backend_operations
    (styles : String → Option Rpc) (request : CodeGeneratorRequest)
    (s : String) (rpc : Rpc)
    (hstyle : (parseInput request.parameter).style = some s)
    (hrpc : styles s = some rpc) :
    (∃ resp, mainRun styles request = Except.ok resp) ∧
    (rpc.createServiceClient? = none → rpc.createUnimplementedServer? = none →
     rpc.createGrpcInterfaceType? = none → rpc.wrapInNamespace? = none →
     ∀ resp, mainRun styles request = Except.ok resp →
       ∀ g ∈ resp.file, ∀ st ∈ contentStmts g.content, st.isTranslatorOutput = true) := by
  constructor
  · exact ⟨_, mainRun_ok_of_style hstyle hrpc⟩
  · intro h1 h2 h3 h4 resp hok g hg st hst
    rcases mainRun_content_shape hok with ⟨s', rpc', hstyle', hrpc', hshape⟩
    have hs : s' = s := Option.some.inj (hstyle'.symm.trans hstyle)
    rw [hs] at hrpc'
    have hr : rpc' = rpc := Option.some.inj (hrpc'.symm.trans hrpc)
    rw [hr] at hshape
    rcases forall₂_mem_right hshape hg with ⟨f, _, c, m, _, _, hcontent⟩
    rw [hcontent] at hst
    rw [contentStmts_append, contentStmts_append] at hst
    have hwrap : wrapCond rpc f = false := by
      unfold wrapCond
      rw [h4]
    have htail : wrapTail rpc f (buildStatements rpc (parseInput request.parameter)
        (preprocessAll request.proto_file) m pbId grpcId f)
        = (buildStatements rpc (parseInput request.parameter)
            (preprocessAll request.proto_file) m pbId grpcId f).map OutStmt.plain := by
      unfold wrapTail
      rw [hwrap]
      simp
    rw [htail, contentStmts_map_plain] at hst
    have hpre1 : contentStmts (createComment f request.compiler_version
        :: buildDepImports f.name f.dependency c) = [] := by
      simpa [contentStmts, createComment] using contentStmts_depImports f.name f.dependency c
    have hpre2 : contentStmts [createImport pbId "google-protobuf",
        createImport grpcId (parseInput request.parameter).grpc_package] = [] := rfl
    rw [hpre1, hpre2] at hst
    simp only [List.nil_append] at hst
    rw [buildStatements_none (parseInput request.parameter) (preprocessAll request.proto_file)
      m pbId grpcId f rpc h1 h2 h3] at hst
    rcases List.mem_append.mp hst with hx | hx
    · rcases List.mem_map.mp hx with ⟨e, _, he⟩
      rw [← he]
      rfl
    · rcases List.mem_flatten.mp hx with ⟨l, hl, hstl⟩
      rcases List.mem_map.mp hl with ⟨mm, _, hml⟩
      rw [← hml] at hstl
      simp only [createMessage, List.mem_singleton] at hstl
      rw [hstl]
      rfl

/-- C5 witness: the theorem applied to the concrete batch compiled with
the backend that implements none of the four operations. -/
theorem c5_optional_backend_operations_holds :
    (∃ resp, mainRun stylesBoth reqStale = Except.ok resp) ∧
    (rpcNone.createServiceClient? = none → rpcNone.createUnimplementedServer? = none →
     rpcNone.createGrpcInterfaceType? = none → rpcNone.wrapInNamespace? = none →
     ∀ resp, mainRun stylesBoth reqStale = Except.ok resp →
       ∀ g ∈ resp.file, ∀ st ∈ contentStmts g.content, st.isTranslatorOutput = true) :=
  c5_optional_backend_operations stylesBoth reqStale "none" rpcNone rfl rfl

theorem nsCount_append (l₁ l₂ : List OutStmt) :
    nsCount (l₁ ++ l₂) = nsCount l₁ + nsCount l₂ := by
  simp [nsCount, List.filter_append]

theorem nsCount_eq_zero {l : List OutStmt}
    (h : ∀ x ∈ l, isNamespaceStmt x = false) : nsCount l = 0 := by
  simp only [nsCount, List.length_eq_zero]
  exact List.filter_eq_nil_iff.mpr (fun x hx => by simp [h x hx])

theorem nsCount_content_head (f : FileDescriptorProto) (v : Version) (c : Nat)
    (gp : String) :
    nsCount ((createComment f v :: buildDepImports f.name f.dependency c)
      ++ [createImport pbId "google-protobuf", createImport grpcId gp]) = 0 := by
  refine nsCount_eq_zero ?_
  intro x hx
  rcases List.mem_append.mp hx with hx | hx
  · rcases List.mem_cons.mp hx with hx | hx
    · rw [hx]; rfl
    · rcases buildDepImports_mem hx with ⟨d, i, _, he, _, _⟩
      rw [he]; rfl
  · rcases List.mem_cons.mp hx with hx | hx
    · rw [hx]; rfl
    rcases List.mem_cons.mp hx with hx | hx
    · rw [hx]; rfl
    · cases hx

theorem mem_content_head_not_ns {f : FileDescriptorProto} {v : Version} {c : Nat}
    {gp : String} {pkg : Option String} {body : List Stmt}
    (hx : OutStmt.namespaceDecl pkg body ∈ (createComment f v
      :: buildDepImports f.name f.dependency c)
      ++ [createImport pbId "google-protobuf", createImport grpcId gp]) : False := by
  rcases List.mem_append.mp hx with hx | hx
  · rcases List.mem_cons.mp hx with hx | hx
    · cases hx
    · rcases buildDepImports_mem hx with ⟨d, i, _, he, _, _⟩
      cases he
  · rcases List.mem_cons.mp hx with hx | hx
    · cases hx
    rcases List.mem_cons.mp hx with hx | hx
    · cases hx
    · cases hx

theorem mem_content_head_cases {f : FileDescriptorProto} {v : Version} {c : Nat}
    {gp : String} {x : OutStmt}
    (hx : x ∈ (createComment f v :: buildDepImports f.name f.dependency c)
      ++ [createImport pbId "google-protobuf", createImport grpcId gp]) :
    x = createComment f v ∨ ∃ i sp, x = OutStmt.importDecl i sp := by
  rcases List.mem_append.mp hx with hx | hx
  · rcases List.mem_cons.mp hx with hx | hx
    · exact Or.inl hx
    · rcases buildDepImports_mem hx with ⟨d, i, _, he, _, _⟩
      exact Or.inr ⟨i, _, he⟩
  · rcases List.mem_cons.mp hx with hx | hx
    · exact Or.inr ⟨pbId, _, hx⟩
    rcases List.mem_cons.mp hx with hx | hx
    · exact Or.inr ⟨grpcId, _, hx⟩
    · cases hx

theorem contentStmts_content_head (f : FileDescriptorProto) (v : Version) (c : Nat)
    (gp : String) :
    contentStmts ((createComment f v :: buildDepImports f.name f.dependency c)
      ++ [createImport pbId "google-protobuf", createImport grpcId gp]) = [] := by
  rw [contentStmts_append]
  have h1 : contentStmts (createComment f v :: buildDepImports f.name f.dependency c)
      = [] := by
    simpa [contentStmts, createComment] using contentStmts_depImports f.name f.dependency c
  rw [h1]
  rfl

/-- C6: in every generated file of a successful run, the translated
declarations sit inside exactly one namespace scope named by the schema
package exactly when the wrapping query of the active backend exists and
reports true for the file (wrapCond encodes the absent-query case as
false): with the query true, everything outside the single namespace is
the header comment and imports and the declarations of the file are
exactly the namespace body; otherwise no namespace scope appears and the
declarations are at top level. -/
theorem c6_namespace_wrapping_iff_query
    (styles : String → Option Rpc) (request : CodeGeneratorRequest)
    (s : String) (rpc : Rpc) (resp : CodeGeneratorResponse)
    (hstyle : (parseInput request.parameter).style = some s)
    (hrpc : styles s = some rpc)
    (h : mainRun styles request = Except.ok resp) :
    List.Forall₂ (fun f g =>
      nsCount g.content = (if wrapCond rpc f then 1 else 0) ∧
      (wrapCond rpc f = true →
        ∃ pre stmts, g.content = pre ++ [OutStmt.namespaceDecl f.package stmts] ∧
          (∀ x ∈ pre, (∀ st : Stmt, x ≠ OutStmt.plain st) ∧
            (∀ pkg body, x ≠ OutStmt.namespaceDecl pkg body)) ∧
          contentStmts g.content = stmts ∧
          nsCount pre = 0) ∧
      (wrapCond rpc f = false →
        (∀ pkg body, OutStmt.namespaceDecl pkg body ∉ g.content) ∧
        ∃ stmts : List Stmt, ∃ pre,
          g.content = pre ++ stmts.map OutStmt.plain ∧ nsCount pre = 0))
      request.proto_file resp.file := by
  rcases mainRun_content_shape h with ⟨s', rpc', hstyle', hrpc', hshape⟩
  have hs : s' = s := Option.some.inj (hstyle'.symm.trans hstyle)
  rw [hs] at hrpc'
  have hr : rpc' = rpc := Option.some.inj (hrpc'.symm.trans hrpc)
  rw [hr] at hshape
  refine hshape.imp ?_
  rintro f g ⟨c, m, _, _, hcontent⟩
  rw [hcontent]
  by_cases hw : wrapCond rpc f
  · have htail : wrapTail rpc f (buildStatements rpc (parseInput request.parameter)
        (preprocessAll request.proto_file) m pbId grpcId f)
        = [createNamespace f.package (buildStatements rpc (parseInput request.parameter)
            (preprocessAll request.proto_file) m pbId grpcId f)] := by
      unfold wrapTail
      rw [if_pos hw]
    refine ⟨?_, ?_, ?_⟩
    · rw [htail, nsCount_append, nsCount_content_head, if_pos hw]
      rfl
    · intro _
      refine ⟨(createComment f request.compiler_version
          :: buildDepImports f.name f.dependency c)
          ++ [createImport pbId "google-protobuf",
              createImport grpcId (parseInput request.parameter).grpc_package],
        buildStatements rpc (parseInput request.parameter)
          (preprocessAll request.proto_file) m pbId grpcId f, ?_, ?_, ?_, ?_⟩
      · rw [htail]
        rfl
      · intro x hx
        rcases mem_content_head_cases hx with he | ⟨i, sp, he⟩ <;> subst he <;>
          exact ⟨fun st hps => by simp [createComment] at hps,
                 fun pkg body hps => by simp [createComment] at hps⟩
      · rw [htail, contentStmts_append, contentStmts_content_head]
        simp [contentStmts, createNamespace]
      · exact nsCount_content_head f request.compiler_version c _
    · intro hfalse
      rw [hfalse] at hw
      cases hw
  · have hwf : wrapCond rpc f = false := by
      exact Bool.not_eq_true _ ▸ (by simpa using hw)
    have htail : wrapTail rpc f (buildStatements rpc (parseInput request.parameter)
        (preprocessAll request.proto_file) m pbId grpcId f)
        = (buildStatements rpc (parseInput request.parameter)
            (preprocessAll request.proto_file) m pbId grpcId f).map OutStmt.plain := by
      unfold wrapTail
      rw [hwf]
      simp
    refine ⟨?_, ?_, ?_⟩
    · rw [htail, nsCount_append, nsCount_content_head, hwf]
      have : nsCount ((buildStatements rpc (parseInput request.parameter)
          (preprocessAll request.proto_file) m pbId grpcId f).map OutStmt.plain) = 0 := by
        refine nsCount_eq_zero ?_
        intro x hx
        rcases List.mem_map.mp hx with ⟨st, _, he⟩
        rw [← he]; rfl
      rw [this]
      rfl
    · intro htrue
      rw [htrue] at hwf
      cases hwf
    · intro _
      constructor
      · intro pkg body hmem
        rcases List.mem_append.mp hmem with hx | hx
        · exact mem_content_head_not_ns hx
        · rw [htail] at hx
          rcases List.mem_map.mp hx with ⟨st, _, he⟩
          cases he
      · refine ⟨buildStatements rpc (parseInput request.parameter)
            (preprocessAll request.proto_file) m pbId grpcId f,
          (createComment f request.compiler_version
            :: buildDepImports f.name f.dependency c)
            ++ [createImport pbId "google-protobuf",
                createImport grpcId (parseInput request.parameter).grpc_package], ?_, ?_⟩
        · rw [htail]
        · exact nsCount_content_head f request.compiler_version c _

/-- C6 witness: applied to the concrete one-service batch compiled with
the wrapping backend. -/
def fileSvc : FileDescriptorProto := ⟨"s.proto", some "x.y", [], [], [], [⟨"Svc"⟩]⟩

def reqFull : CodeGeneratorRequest := ⟨"style=full,grpc_package=@x/y", ⟨4, 25, 1⟩, [fileSvc]⟩

def respFull : CodeGeneratorResponse :=
  (mainRun stylesBoth reqFull).toOption.getD ⟨[]⟩

theorem c6_namespace_wrapping_iff_query_holds :
    List.Forall₂ (fun f g =>
      nsCount g.content = (if wrapCond rpcFull f then 1 else 0) ∧
      (wrapCond rpcFull f = true →
        ∃ pre stmts, g.content = pre ++ [OutStmt.namespaceDecl f.package stmts] ∧
          (∀ x ∈ pre, (∀ st : Stmt, x ≠ OutStmt.plain st) ∧
            (∀ pkg body, x ≠ OutStmt.namespaceDecl pkg body)) ∧
          contentStmts g.content = stmts ∧
          nsCount pre = 0) ∧
      (wrapCond rpcFull f = false →
        (∀ pkg body, OutStmt.namespaceDecl pkg body ∉ g.content) ∧
        ∃ stmts : List Stmt, ∃ pre,
          g.content = pre ++ stmts.map OutStmt.plain ∧ nsCount pre = 0))
      reqFull.proto_file respFull.file :=
  c6_namespace_wrapping_iff_query stylesBoth reqFull "full" rpcFull respFull rfl rfl rfl

/-- C7: the backend is resolved once from the configured style before any
file is processed; a missing or unresolvable style is a fatal startup
error producing no generated file, and with a resolvable style the single
loaded backend drives the compilation of the whole batch. -/
theorem c7_backend_loaded_once_or_fatal
    (styles : String → Option Rpc) (request : CodeGeneratorRequest) :
    (((parseInput request.parameter).style = none ∨
      (∃ s, (parseInput request.parameter).style = some s ∧ styles s = none)) →
      ∃ e, mainRun styles request = Except.error e) ∧
    (∀ s rpc, (parseInput request.parameter).style = some s → styles s = some rpc →
      mainRun styles request = Except.ok ⟨(compileFiles rpc (parseInput request.parameter)
        request.compiler_version (preprocessAll request.proto_file) pbId grpcId
        request.proto_file (2, resetDependencyMap)).1⟩) := by
  constructor
  · rintro (hnone | ⟨s, hsome, hload⟩)
    · exact ⟨_, mainRun_error_of_no_style hnone⟩
    · exact ⟨_, mainRun_error_of_unknown_style hsome hload⟩
  · intro s rpc hstyle hrpc
    exact mainRun_ok_of_style hstyle hrpc

/-- A request whose parameter string configures no style. -/
def reqNoStyle : CodeGeneratorRequest := ⟨"", ⟨0, 0, 0⟩, [fileA]⟩

/-- C7 witness: a missing style is fatal on a concrete request, and a
resolvable style compiles the concrete batch with the loaded backend. -/
theorem c7_backend_loaded_once_or_fatal_holds :
    (∃ e, mainRun stylesBoth reqNoStyle = Except.error e) ∧
    mainRun stylesBoth reqStale = Except.ok ⟨(compileFiles rpcNone
      (parseInput reqStale.parameter) reqStale.compiler_version
      (preprocessAll reqStale.proto_file) pbId grpcId reqStale.proto_file
      (2, resetDependencyMap)).1⟩ :=
  ⟨(c7_backend_loaded_once_or_fatal stylesBoth reqNoStyle).1 (Or.inl rfl),
   (c7_backend_loaded_once_or_fatal stylesBoth reqStale).2 "none" rpcNone rfl rfl⟩

/-- C8: every generated file is named by replacing the final extension of
its schema file with .ts, and for a schema file name of the usual shape
(a stem, a dot, a nonempty extension free of dots and slashes) this
preserves the stem, hence the whole directory structure. -/
theorem c8_output_name_extension_replaced
    (styles : String → Option Rpc) (request : CodeGeneratorRequest)
    (resp : CodeGeneratorResponse) (h : mainRun styles request = Except.ok resp) :
    List.Forall₂ (fun f g =>
      g.name = replaceExtension f.name ".ts" ∧
      ∀ stem ext, f.name = stem ++ "." ++ ext → ext ≠ "" →
        (∀ ch ∈ ext.data, ch ≠ '.' ∧ ch ≠ '/') → g.name = stem ++ ".ts")
      request.proto_file resp.file := by
  rcases mainRun_content_shape h with ⟨s, rpc, _, _, hshape⟩
  refine hshape.imp ?_
  rintro f g ⟨c, m, _, hname, _⟩
  refine ⟨hname, ?_⟩
  intro stem ext heq hne hch
  rw [hname, heq, replaceExtension_wellformed stem ext hne hch]

/-- C8 witness: the theorem applied to the concrete batch. -/
theorem c8_output_name_extension_replaced_holds :
    List.Forall₂ (fun f g =>
      g.name = replaceExtension f.name ".ts" ∧
      ∀ stem ext, f.name = stem ++ "." ++ ext → ext ≠ "" →
        (∀ ch ∈ ext.data, ch ≠ '.' ∧ ch ≠ '/') → g.name = stem ++ ".ts")
      reqStale.proto_file respStale.file :=
  c8_output_name_extension_replaced stylesBoth reqStale respStale rfl

/-- C9: two runs of the compiler on the same request, each a fresh
process starting from the same initial unique-name counter and dependency
map state, produce identical responses. -/
theorem c9_two_runs_identical (styles : String → Option Rpc)
    (request : CodeGeneratorRequest) :
    (runTwice styles request).1 = (runTwice styles request).2 := rfl

/-- C10: every generated file of a run binds its runtime imports to the
one pair of aliases allocated before the per-file loop (counter values 0
and 1), and every other import of the run is a per-dependency alias with
base text dependency and counter value at least 2, hence distinct from
both runtime aliases. -/
theorem c10_runtime_aliases_allocated_once
    (styles : String → Option Rpc) (request : CodeGeneratorRequest)
    (resp : CodeGeneratorResponse) (h : mainRun styles request = Except.ok resp) :
    ∀ g ∈ resp.file,
      createImport pbId "google-protobuf" ∈ g.content ∧
      createImport grpcId (parseInput request.parameter).grpc_package ∈ g.content ∧
      (∀ id sp, OutStmt.importDecl id sp ∈ g.content →
        id = pbId ∨ id = grpcId ∨
          (id.base = "dependency" ∧ 2 ≤ id.uid ∧ id ≠ pbId ∧ id ≠ grpcId)) := by
  rcases mainRun_content_shape h with ⟨s, rpc, _, _, hshape⟩
  intro g hg
  rcases forall₂_mem_right hshape hg with ⟨f, _, c, m, hc, _, hcontent⟩
  rw [hcontent]
  refine ⟨?_, ?_, ?_⟩
  · exact List.mem_append_left _ (List.mem_append_right _ (List.mem_cons_self _ _))
  · exact List.mem_append_left _ (List.mem_append_right _
      (List.mem_cons_of_mem _ (List.mem_cons_self _ _)))
  · intro id sp hmem
    rcases List.mem_append.mp hmem with hx | hx
    · rcases List.mem_append.mp hx with hx | hx
      · rcases List.mem_cons.mp hx with hx | hx
        · cases hx
        · rcases buildDepImports_mem hx with ⟨d, i, _, he, hb, hcu⟩
          cases he
          refine Or.inr (Or.inr ⟨hb, le_trans hc hcu, ?_, ?_⟩)
          · intro hid
            rw [hid] at hb
            exact absurd hb (by decide)
          · intro hid
            rw [hid] at hb
            exact absurd hb (by decide)
      · rcases List.mem_cons.mp hx with hx | hx
        · cases hx
          exact Or.inl rfl
        rcases List.mem_cons.mp hx with hx | hx
        · cases hx
          exact Or.inr (Or.inl rfl)
        · cases hx
    · exact absurd hx (fun hh => no_import_mem_wrapTail hh)

/-- C10 witness: the theorem applied to the concrete batch, at the
generated file of b2.proto. -/
theorem c10_runtime_aliases_allocated_once_holds :
    createImport pbId "google-protobuf" ∈ gStale.content ∧
    createImport grpcId (parseInput reqStale.parameter).grpc_package ∈ gStale.content ∧
    (∀ id sp, OutStmt.importDecl id sp ∈ gStale.content →
      id = pbId ∨ id = grpcId ∨
        (id.base = "dependency" ∧ 2 ≤ id.uid ∧ id ≠ pbId ∧ id ≠ grpcId)) :=
  c10_runtime_aliases_allocated_once stylesBoth reqStale respStale rfl gStale (by decide)
